import Mathlib

/-!
JobTask-server: the ledger handlers of `index.js`.

A shallow embedding of the Express handlers of `src/index.js` over an explicit
database state (the `users` and `transactions` collections), executed one
request at a time.  Amounts and balances are JavaScript numbers: IEEE 754
binary64 values, every arithmetic result rounded to nearest, ties to even.
-/

namespace JobTask

/-! ## JavaScript numbers -/

/-- A JavaScript number: a finite double, given by the rational it denotes, an
infinity, or `NaN`.  The two zeros are one value here, as they are for `<`, `>` and
`===`.  A number read from a request body or from the store is a double, so the
`q` of a `finite q` is a value that `roundDouble` leaves as it is; every operation
below returns such values. -/
inductive JSNumber where
  | finite (q : ℚ)
  | infinity (negative : Bool)
  | nan
  deriving DecidableEq

/-- The integer nearest to `q`, the even one of the two when `q` lies halfway. -/
def roundHalfEven (q : ℚ) : ℤ :=
  if q - ⌊q⌋ < 1 / 2 then ⌊q⌋
  else if 1 / 2 < q - ⌊q⌋ then ⌊q⌋ + 1
  else if ⌊q⌋ % 2 = 0 then ⌊q⌋ else ⌊q⌋ + 1

/-- The exponent of the last place of a double of the size of `q`: 53 significant
bits, and never below the subnormal exponent -1074. -/
def quantumExp (q : ℚ) : ℤ := max (Int.log 2 |q| - 52) (-1074)

/-- The double nearest to the exact value `q` (ties to even), the infinity of its
sign when that rounding reaches `2 ^ 1024`. -/
def roundDouble (q : ℚ) : JSNumber :=
  if 2 ^ 1024 ≤ |(roundHalfEven (q / 2 ^ quantumExp q) : ℚ) * 2 ^ quantumExp q| then
    .infinity (decide (q < 0))
  else .finite (roundHalfEven (q / 2 ^ quantumExp q) * 2 ^ quantumExp q)

/-- JavaScript `x + y` on numbers. -/
def JSNumber.add : JSNumber → JSNumber → JSNumber
  | .finite x, .finite y => roundDouble (x + y)
  | .finite _, .infinity b => .infinity b
  | .infinity a, .finite _ => .infinity a
  | .infinity a, .infinity b => if a = b then .infinity a else .nan
  | _, _ => .nan

/-- JavaScript unary `-x`. -/
def JSNumber.neg : JSNumber → JSNumber
  | .finite x => .finite (-x)
  | .infinity a => .infinity (!a)
  | .nan => .nan

/-- JavaScript `x - y` on numbers. -/
def JSNumber.sub (x y : JSNumber) : JSNumber := x.add y.neg

/-- JavaScript `x * y` on numbers. -/
def JSNumber.mul : JSNumber → JSNumber → JSNumber
  | .finite x, .finite y => roundDouble (x * y)
  | .finite x, .infinity b => if x = 0 then .nan else .infinity (xor (decide (x < 0)) b)
  | .infinity a, .finite y => if y = 0 then .nan else .infinity (xor a (decide (y < 0)))
  | .infinity a, .infinity b => .infinity (xor a b)
  | _, _ => .nan

/-- JavaScript `x < y` on numbers: false as soon as one side is `NaN`. -/
def JSNumber.lt : JSNumber → JSNumber → Bool
  | .finite x, .finite y => decide (x < y)
  | .finite _, .infinity b => !b
  | .infinity a, .finite _ => a
  | .infinity a, .infinity b => a && !b
  | _, _ => false

/-- JavaScript `x > y` on numbers. -/
def JSNumber.gt (x y : JSNumber) : Bool := y.lt x

/-- JavaScript `x <= y` on numbers: false as soon as one side is `NaN`. -/
def JSNumber.le : JSNumber → JSNumber → Bool
  | .finite x, .finite y => decide (x ≤ y)
  | .finite _, .infinity b => !b
  | .infinity a, .finite _ => a
  | .infinity a, .infinity b => a || !b
  | _, _ => false

/-- The rational a finite number denotes, and 0 for an infinity or `NaN`. -/
def JSNumber.value : JSNumber → ℚ
  | .finite q => q
  | _ => 0

/-! ## Data model -/

/-- MongoDB `ObjectId`s, compared by value. -/
abbrev ObjectId := Nat

/-- A document of the `users` collection (`newUser`, lines 84-92). -/
structure User where
  _id : ObjectId
  name : String
  pin : String
  mobileNumber : String
  email : String
  role : String
  status : String
  balance : JSNumber
  deriving DecidableEq

/-- A document of the `transactions` collection (lines 167-174, 198-205, 225-232).
`date` is the millisecond timestamp of `new Date()`. -/
structure Transaction where
  senderId : ObjectId
  recipientId : ObjectId
  amount : JSNumber
  fee : JSNumber
  type : String
  date : Nat
  deriving DecidableEq

/-- The two collections of database `mfsAppDb`. -/
structure Db where
  users : List User
  transactions : List Transaction
  deriving DecidableEq

/-- The payload of a JWT: the `id` and `role` passed to `jwt.sign`. -/
structure Token where
  id : ObjectId
  role : String
  deriving DecidableEq

/-- What a handler answers: `res.status(code).send(msg)` (code 200 for a bare
`res.send`), `res.json` of a token, `res.json(transactions)`, or an exception
thrown inside the async handler (a `TypeError` on a `null` document). -/
inductive Response where
  | status (code : Nat) (msg : String)
  | token (t : Token)
  | records (l : List Transaction)
  | thrown
  deriving DecidableEq

/-- A response that reports a failure: a 4xx/5xx status or a thrown exception. -/
def Response.isError : Response → Bool
  | .status code _ => decide (400 ≤ code)
  | .thrown => true
  | _ => false

/-! ## Collection operations -/

/-- Query `usersCollection.findOne` by `_id`: the first document with that id. -/
def findById (users : List User) (id : ObjectId) : Option User :=
  users.find? (fun u => decide (u._id = id))

/-- Query `usersCollection.findOne` by `mobileNumber`: the first document with that number. -/
def findByMobile (users : List User) (mobileNumber : String) : Option User :=
  users.find? (fun u => decide (u.mobileNumber = mobileNumber))

/-- Update `usersCollection.updateOne` by `_id` with `$set` of `balance`: sets the
balance of the first document with that id, and changes nothing when there is none. -/
def updateBalance : List User → ObjectId → JSNumber → List User
  | [], _, _ => []
  | u :: us, id, b =>
    if u._id = id then { u with balance := b } :: us else u :: updateBalance us id b

/-- Insertion `transactionsCollection.insertOne(doc)`: appends to the collection. -/
def insertOne (log : List Transaction) (doc : Transaction) : List Transaction :=
  log ++ [doc]

/-- The stored balance of the account with the given id. -/
def balanceOf (users : List User) (id : ObjectId) : Option JSNumber :=
  (findById users id).map (fun u => u.balance)

/-- The sum of all stored balances, as the exact sum of the values they denote. -/
def totalBalance (users : List User) : ℚ :=
  (users.map (fun u => u.balance.value)).sum

/-! ## Ledger handlers -/

/-- Lines 162-176 of `POST /send-money`: credit the in-memory recipient, write
both balances (sender first), insert the record, answer success. -/
def sendMoneyCommit (db : Db) (sender recipient : User) (amount senderBalance : JSNumber)
    (now : Nat) : Response × Db :=
  let recipientBalance := recipient.balance.add amount
  let users1 := updateBalance db.users sender._id senderBalance
  let users2 := updateBalance users1 recipient._id recipientBalance
  let log := insertOne db.transactions
    { senderId := sender._id, recipientId := recipient._id, amount := amount,
      fee := if amount.gt (.finite 100) then .finite 5 else .finite 0, type := "send",
      date := now }
  (.status 200 "Transaction successful", { users := users2, transactions := log })

/-- Handler `POST /send-money` (lines 146-177).  `userId` is `req.user.id` of the
verified token, `amount` the number in the request body, `now` the clock at the
insert. -/
def sendMoney (db : Db) (userId : ObjectId) (amount : JSNumber)
    (recipientMobileNumber : String) (now : Nat) : Response × Db :=
  let sender := findById db.users userId
  let recipient := findByMobile db.users recipientMobileNumber
  match recipient with
  | none => (.status 404 "Recipient not found", db)
  | some recipient =>
    match sender with
    | none => (.thrown, db)
    | some sender =>
      if sender.balance.lt amount then (.status 400 "Insufficient balance", db)
      else if amount.lt (.finite 50) then
        (.status 400 "Minimum transaction amount is 50 Taka", db)
      else if amount.gt (.finite 100) then
        let fee : JSNumber := .finite 5
        if sender.balance.lt (amount.add fee) then
          (.status 400 "Insufficient balance for transaction fee", db)
        else sendMoneyCommit db sender recipient amount
          (sender.balance.sub (amount.add fee)) now
      else sendMoneyCommit db sender recipient amount (sender.balance.sub amount) now

/-- Handler `POST /cash-out` (lines 180-208).  The literal `0.015` is the double
nearest to it. -/
def cashOut (db : Db) (userId : ObjectId) (amount : JSNumber) (agentMobileNumber : String)
    (now : Nat) : Response × Db :=
  let user := findById db.users userId
  let agent := findByMobile db.users agentMobileNumber
  match agent with
  | none => (.status 404 "Agent not found", db)
  | some agent =>
    if agent.role ≠ "agent" then (.status 404 "Agent not found", db)
    else
      match user with
      | none => (.thrown, db)
      | some user =>
        if user.balance.lt amount then (.status 400 "Insufficient balance", db)
        else if amount.lt (.finite 50) then
          (.status 400 "Minimum cash-out amount is 50 Taka", db)
        else
          let fee : JSNumber := amount.mul (roundDouble 0.015)
          if user.balance.lt (amount.add fee) then
            (.status 400 "Insufficient balance for transaction fee", db)
          else
            let userBalance := user.balance.sub (amount.add fee)
            let agentBalance := agent.balance.add amount
            let users1 := updateBalance db.users user._id userBalance
            let users2 := updateBalance users1 agent._id agentBalance
            let log := insertOne db.transactions
              { senderId := user._id, recipientId := agent._id, amount := amount,
                fee := fee, type := "cash-out", date := now }
            (.status 200 "Cash-out successful", { users := users2, transactions := log })

/-- Handler `POST /cash-in` (lines 211-235). -/
def cashIn (db : Db) (userId : ObjectId) (amount : JSNumber) (agentMobileNumber : String)
    (now : Nat) : Response × Db :=
  let user := findById db.users userId
  let agent := findByMobile db.users agentMobileNumber
  match agent with
  | none => (.status 404 "Agent not found", db)
  | some agent =>
    if agent.role ≠ "agent" then (.status 404 "Agent not found", db)
    else
      match user with
      | none => (.thrown, db)
      | some user =>
        let agentBalance := agent.balance.sub amount
        let userBalance := user.balance.add amount
        let users1 := updateBalance db.users agent._id agentBalance
        let users2 := updateBalance users1 user._id userBalance
        let log := insertOne db.transactions
          { senderId := agent._id, recipientId := user._id, amount := amount,
            fee := .finite 0, type := "cash-in", date := now }
        (.status 200 "Cash-in successful", { users := users2, transactions := log })

/-! ## Transaction history -/

/-- The filter of `GET /transactions`: `senderId` or `recipientId` is the caller. -/
def involves (userId : ObjectId) (t : Transaction) : Bool :=
  decide (t.senderId = userId) || decide (t.recipientId = userId)

/-- The order requested by `.sort` on `date: -1`: newest first. -/
def newerOrEq (a b : Transaction) : Prop := b.date ≤ a.date

instance : DecidableRel newerOrEq := fun a b => inferInstanceAs (Decidable (b.date ≤ a.date))

instance : IsTotal Transaction newerOrEq := ⟨fun a b => Nat.le_total b.date a.date⟩

instance : IsTrans Transaction newerOrEq := ⟨fun _ _ _ hab hbc => Nat.le_trans hbc hab⟩

/-- Handler `GET /transactions` (lines 238-246): filter, sort by date descending,
limit 10.  The collection is read in insertion order and the store's sort is
stable, so documents of equal date stay in insertion order. -/
def getTransactions (db : Db) (userId : ObjectId) : List Transaction :=
  ((db.transactions.filter (involves userId)).insertionSort newerOrEq).take 10

/-! ## Registration and login -/

/-- The body of `POST /register`; an absent field is the empty string. -/
structure RegisterBody where
  name : String
  pin : String
  mobileNumber : String
  email : String
  role : String

/-- Query `usersCollection.findOne` with `$or` of `mobileNumber` and `email`; a field
absent from the request matches no stored document. -/
def findByMobileOrEmail (users : List User) (mobileNumber email : Option String) :
    Option User :=
  users.find? (fun u => decide (some u.mobileNumber = mobileNumber) ||
    decide (some u.email = email))

/-- The query of `POST /admin/login`: the same `$or`, and `role: 'admin'`. -/
def findAdminByMobileOrEmail (users : List User) (mobileNumber email : Option String) :
    Option User :=
  users.find? (fun u => (decide (some u.mobileNumber = mobileNumber) ||
    decide (some u.email = email)) && decide (u.role = "admin"))

/-- Handler `POST /register` (lines 63-96).  `hash` is `bcrypt.hash`, `newId` the
`_id` the store gives the inserted document. -/
def register (hash : String → String) (db : Db) (body : RegisterBody) (newId : ObjectId) :
    Response × Db :=
  if body.name = "" ∨ body.pin = "" ∨ body.mobileNumber = "" ∨ body.email = "" ∨
      body.role = "" then
    (.status 400 "All fields are required", db)
  else
    match findByMobileOrEmail db.users (some body.mobileNumber) (some body.email) with
    | some _ => (.status 400 "User already exists with provided mobile number or email", db)
    | none =>
      let initialBalance : JSNumber := if body.role = "agent" then .finite 10000 else .finite 0
      let newUser : User :=
        { _id := newId, name := body.name, pin := hash body.pin,
          mobileNumber := body.mobileNumber, email := body.email, role := body.role,
          status := "pending", balance := initialBalance }
      (.status 201 "User registered successfully", { db with users := db.users ++ [newUser] })

/-- Handler `POST /login` (lines 99-122).  `compare` is `bcrypt.compare`. -/
def login (compare : String → String → Bool) (db : Db) (mobileNumber email : Option String)
    (pin : String) : Response :=
  match findByMobileOrEmail db.users mobileNumber email with
  | none => .status 400 "User not found"
  | some user =>
    if !compare pin user.pin then .status 400 "Invalid PIN"
    else if user.status ≠ "approved" then .status 400 "Account not approved"
    else .token { id := user._id, role := user.role }

/-- Handler `POST /admin/login` (lines 250-260). -/
def adminLogin (compare : String → String → Bool) (db : Db)
    (mobileNumber email : Option String) (pin : String) : Response :=
  match findAdminByMobileOrEmail db.users mobileNumber email with
  | none => .status 400 "Admin not found"
  | some admin =>
    if !compare pin admin.pin then .status 400 "Invalid PIN"
    else .token { id := admin._id, role := admin.role }

/-! ## Sample states -/

/-- An approved customer with the given id, mobile number and balance. -/
def customer (id : ObjectId) (mobile : String) (balance : ℚ) : User :=
  { _id := id, name := "c", pin := "h", mobileNumber := mobile, email := mobile ++ "@x",
    role := "user", status := "approved", balance := .finite balance }

/-- An approved agent with the given id, mobile number and balance. -/
def agentUser (id : ObjectId) (mobile : String) (balance : ℚ) : User :=
  { _id := id, name := "a", pin := "h", mobileNumber := mobile, email := mobile ++ "@x",
    role := "agent", status := "approved", balance := .finite balance }

/-- A database with one customer (id 1, balance 200), a second customer (id 2,
balance 0) and one agent (id 3, balance 10000), and an empty transaction log. -/
def db0 : Db :=
  { users := [customer 1 "011" 200, customer 2 "022" 0, agentUser 3 "033" 10000],
    transactions := [] }

/-- The double written `139.1`. -/
def d139_1 : ℚ := 4894146157556531 / 2 ^ 45

/-- The double written `60.3`. -/
def d60_3 : ℚ := 4243235273913139 / 2 ^ 46

/-- The double written `0.7`. -/
def d0_7 : ℚ := 3152519739159347 / 2 ^ 52

/-- The double written `78.8`. -/
def d78_8 : ℚ := 5545057041199923 / 2 ^ 46

/-- A database with customer 1 holding `139.1` and customer 2 holding `0.7`. -/
def dbDecimal : Db :=
  { users := [customer 1 "011" d139_1, customer 2 "022" d0_7], transactions := [] }

/-- A send record of account 1 to account 2 with the given amount and date. -/
def sendRecord (amount : ℚ) (date : Nat) : Transaction :=
  { senderId := 1, recipientId := 2, amount := .finite amount, fee := .finite 0,
    type := "send", date := date }

/-- Fifteen records of account 1, one of account 3 among them, with two pairs of
equal dates. -/
def fifteenLog : List Transaction :=
  [sendRecord 51 1, sendRecord 52 2, sendRecord 53 3, sendRecord 54 4, sendRecord 55 5,
   sendRecord 56 6, sendRecord 57 6, sendRecord 58 8,
   { senderId := 3, recipientId := 2, amount := .finite 99, fee := .finite 0,
     type := "send", date := 9 },
   sendRecord 59 9, sendRecord 60 10, sendRecord 61 11, sendRecord 62 12, sendRecord 63 12,
   sendRecord 64 14, sendRecord 65 15]

/-- A registration asking for the role `admin`. -/
def adminBody : RegisterBody :=
  { name := "m", pin := "1234", mobileNumber := "099", email := "m@x", role := "admin" }

/-- A stand-in for `bcrypt.hash` on the sample states. -/
def sampleHash (pin : String) : String := "#" ++ pin

/-- A stand-in for `bcrypt.compare` on the sample states. -/
def sampleCompare (pin stored : String) : Bool := decide (sampleHash pin = stored)

/-! ## Facts about rounding -/

theorem int_log_two_eq {r : ℚ} {k : ℤ} (hr : 0 < r) (h1 : (2 : ℚ) ^ k ≤ r)
    (h2 : r < (2 : ℚ) ^ (k + 1)) : Int.log 2 r = k := by
  have a : k ≤ Int.log 2 r := (Int.zpow_le_iff_le_log (by norm_num) hr).1 (by exact_mod_cast h1)
  have b : Int.log 2 r < k + 1 := (Int.lt_zpow_iff_log_lt (by norm_num) hr).1 (by exact_mod_cast h2)
  omega

theorem quantumExp_eq {q : ℚ} {e : ℤ} (he : -1074 ≤ e) (h1 : (2 : ℚ) ^ (e + 52) ≤ |q|)
    (h2 : |q| < (2 : ℚ) ^ (e + 53)) : quantumExp q = e := by
  have hpos : 0 < |q| := lt_of_lt_of_le (by positivity) h1
  have hl : Int.log 2 |q| = e + 52 :=
    int_log_two_eq hpos h1 (by rw [show e + 52 + 1 = e + 53 by ring]; exact h2)
  unfold quantumExp
  rw [hl]
  have : e + 52 - 52 = e := by ring
  rw [this]
  exact max_eq_left he

theorem roundHalfEven_intCast (n : ℤ) : roundHalfEven (n : ℚ) = n := by
  simp [roundHalfEven]

theorem roundHalfEven_eq_of_near {x : ℚ} {m : ℤ} (h1 : (m : ℚ) - 1 / 2 < x)
    (h2 : x < (m : ℚ) + 1 / 2) : roundHalfEven x = m := by
  unfold roundHalfEven
  by_cases hx : (m : ℚ) ≤ x
  · have hf : ⌊x⌋ = m := by
      rw [Int.floor_eq_iff]
      exact ⟨hx, by linarith⟩
    rw [hf, if_pos (by linarith)]
  · have hx2 : x < m := lt_of_not_le hx
    have hf : ⌊x⌋ = m - 1 := by
      rw [Int.floor_eq_iff]
      push_cast
      exact ⟨by linarith, by linarith⟩
    rw [hf]
    push_cast
    rw [if_neg (by linarith), if_pos (by linarith)]
    ring

theorem roundHalfEven_tie_even {x : ℚ} {m : ℤ} (hx : x = (m : ℚ) + 1 / 2)
    (hm : m % 2 = 0) : roundHalfEven x = m := by
  have hf : ⌊x⌋ = m := by
    rw [Int.floor_eq_iff]
    exact ⟨by linarith, by linarith⟩
  unfold roundHalfEven
  rw [hf, if_neg (by linarith), if_neg (by linarith), if_pos hm]

theorem roundDouble_eq {q : ℚ} {e m : ℤ} (he : quantumExp q = e)
    (hm : roundHalfEven (q / 2 ^ e) = m) (hlt : |(m : ℚ) * 2 ^ e| < 2 ^ 1024) :
    roundDouble q = .finite (m * 2 ^ e) := by
  unfold roundDouble
  rw [he, hm, if_neg (not_le.2 hlt)]

/-- A value `m * 2 ^ k` with fewer than 54 significant bits, in the exponent range of
doubles, is a double: rounding leaves it as it is. -/
theorem roundDouble_of_representable {q : ℚ} (m k : ℤ) (hq : q = m * 2 ^ k)
    (hm : |m| < 2 ^ 53) (hk : -1074 ≤ k) (hlt : |q| < 2 ^ 1024) :
    roundDouble q = .finite q := by
  by_cases h0 : q = 0
  · subst h0
    simp [roundDouble, roundHalfEven]
  · have hpos : 0 < |q| := abs_pos.2 h0
    have hle : quantumExp q ≤ k := by
      have habs : |q| < (2 : ℚ) ^ (53 + k) := by
        have hm' : |(m : ℚ)| < 2 ^ (53 : ℕ) := by
          have : ((|m| : ℤ) : ℚ) < ((2 ^ 53 : ℤ) : ℚ) := by exact_mod_cast hm
          simpa using this
        calc |q| = |(m : ℚ)| * 2 ^ k := by
              rw [hq, abs_mul, abs_of_pos (show (0 : ℚ) < 2 ^ k by positivity)]
          _ < 2 ^ (53 : ℕ) * 2 ^ k :=
              mul_lt_mul_of_pos_right hm' (by positivity)
          _ = 2 ^ (53 + k) := by
              rw [zpow_add₀ (by norm_num : (2 : ℚ) ≠ 0)]
              norm_num
      have hlog : Int.log 2 |q| < 53 + k :=
        (Int.lt_zpow_iff_log_lt (by norm_num) hpos).1 (by exact_mod_cast habs)
      unfold quantumExp
      exact max_le (by omega) hk
    obtain ⟨e, he⟩ : ∃ e, quantumExp q = e := ⟨_, rfl⟩
    rw [he] at hle
    obtain ⟨d, hd⟩ : ∃ d : ℕ, k = e + d := ⟨(k - e).toNat, by omega⟩
    have h2 : (2 : ℚ) ^ e ≠ 0 := by positivity
    have hdiv : q / 2 ^ e = ((m * 2 ^ d : ℤ) : ℚ) := by
      rw [hq, hd, zpow_add₀ (by norm_num : (2 : ℚ) ≠ 0)]
      field_simp
      ring
    have hback : ((m * 2 ^ d : ℤ) : ℚ) * 2 ^ e = q := by
      rw [← hdiv]
      field_simp
    unfold roundDouble
    rw [he, hdiv, roundHalfEven_intCast, hback, if_neg (not_le.2 hlt)]

/-- Integers of magnitude below `2 ^ 53` are doubles. -/
theorem roundDouble_intCast (n : ℤ) (h : |n| < 2 ^ 53) :
    roundDouble (n : ℚ) = .finite (n : ℚ) := by
  refine roundDouble_of_representable n 0 (by simp) h (by norm_num) ?_
  have h1 : |(n : ℚ)| < 2 ^ (53 : ℕ) := by
    have : ((|n| : ℤ) : ℚ) < ((2 ^ 53 : ℤ) : ℚ) := by exact_mod_cast h
    simpa using this
  exact lt_trans h1 (by norm_num)

theorem add_intCast (a b : ℤ) (h : |a + b| < 2 ^ 53) :
    (JSNumber.finite a).add (.finite b) = .finite ((a + b : ℤ) : ℚ) := by
  have := roundDouble_intCast (a + b) h
  simpa [JSNumber.add] using this

theorem sub_intCast (a b : ℤ) (h : |a - b| < 2 ^ 53) :
    (JSNumber.finite a).sub (.finite b) = .finite ((a - b : ℤ) : ℚ) := by
  have := roundDouble_intCast (a - b) h
  simpa [JSNumber.sub, JSNumber.neg, JSNumber.add, sub_eq_add_neg] using this

/-- The double written `0.015` in line 189. -/
theorem roundDouble_fee_rate :
    roundDouble 0.015 = .finite (1080863910568919 / 2 ^ 56) := by
  have he : quantumExp 0.015 = -59 := by
    apply quantumExp_eq (by norm_num) <;> norm_num [abs_of_pos]
  have hm : roundHalfEven ((0.015 : ℚ) / 2 ^ (-59 : ℤ)) = 8646911284551352 := by
    apply roundHalfEven_eq_of_near <;> norm_num
  rw [roundDouble_eq he hm (by norm_num [abs_of_pos])]
  congr 1
  norm_num

/-- In doubles `100 * 0.015` is `1.5`. -/
theorem mul_hundred_fee_rate :
    (JSNumber.finite 100).mul (roundDouble 0.015) = .finite (3 / 2) := by
  rw [roundDouble_fee_rate]
  show roundDouble (100 * (1080863910568919 / 2 ^ 56)) = _
  have he : quantumExp (100 * (1080863910568919 / 2 ^ 56)) = -52 := by
    apply quantumExp_eq (by norm_num) <;> norm_num [abs_of_pos]
  have hm : roundHalfEven ((100 * (1080863910568919 / 2 ^ 56) : ℚ) / 2 ^ (-52 : ℤ)) =
      6755399441055744 := by
    apply roundHalfEven_eq_of_near <;> norm_num
  rw [roundDouble_eq he hm (by norm_num [abs_of_pos])]
  congr 1
  norm_num

/-- In doubles `60 * 0.015` is `0.8999999999999999`, not `0.9`. -/
theorem mul_sixty_fee_rate :
    (JSNumber.finite 60).mul (roundDouble 0.015) =
      .finite (2026619832316723 / 2 ^ 51) ∧
    (2026619832316723 / 2 ^ 51 : ℚ) < 9 / 10 := by
  refine ⟨?_, by norm_num⟩
  rw [roundDouble_fee_rate]
  show roundDouble (60 * (1080863910568919 / 2 ^ 56)) = _
  have he : quantumExp (60 * (1080863910568919 / 2 ^ 56)) = -53 := by
    apply quantumExp_eq (by norm_num) <;> norm_num [abs_of_pos]
  have hm : roundHalfEven ((60 * (1080863910568919 / 2 ^ 56) : ℚ) / 2 ^ (-53 : ℤ)) =
      8106479329266892 := by
    apply roundHalfEven_tie_even <;> norm_num
  rw [roundDouble_eq he hm (by norm_num [abs_of_pos])]
  congr 1
  norm_num

/-! ## Facts about the collection operations -/

theorem findById_some {users : List User} {id : ObjectId} {u : User}
    (h : findById users id = some u) : u._id = id ∧ u ∈ users := by
  unfold findById at h
  have h1 := List.find?_some h
  exact ⟨by simpa using h1, List.mem_of_find?_eq_some h⟩

theorem findByMobile_mem {users : List User} {m : String} {u : User}
    (h : findByMobile users m = some u) : u ∈ users :=
  List.mem_of_find?_eq_some h

theorem findById_updateBalance_self {users : List User} {id : ObjectId} {u : User}
    (b : JSNumber) (h : findById users id = some u) :
    findById (updateBalance users id b) id = some { u with balance := b } := by
  induction users with
  | nil => simp [findById] at h
  | cons v vs ih =>
    by_cases hv : v._id = id
    · have hvu : v = u := by simpa [findById, List.find?, hv] using h
      subst hvu
      rw [updateBalance, if_pos hv]
      simp [findById, List.find?, hv]
    · have h2 : findById vs id = some u := by simpa [findById, List.find?, hv] using h
      rw [updateBalance, if_neg hv]
      have := ih h2
      simpa [findById, List.find?, hv] using this

theorem findById_updateBalance_ne (users : List User) {id id2 : ObjectId} (b : JSNumber)
    (hne : id2 ≠ id) :
    (findById (updateBalance users id b) id2).map (fun u => u.balance) =
      (findById users id2).map (fun u => u.balance) := by
  induction users with
  | nil => rfl
  | cons v vs ih =>
    by_cases hv : v._id = id
    · have hv2 : ¬ v._id = id2 := fun h => hne (h.symm.trans hv)
      rw [updateBalance, if_pos hv]
      simp [findById, List.find?, hv2]
    · rw [updateBalance, if_neg hv]
      by_cases hv2 : v._id = id2
      · simp [findById, List.find?, hv2]
      · have := ih
        simpa [findById, List.find?, hv2] using this

theorem balanceOf_updateBalance_self {users : List User} {id : ObjectId} {u : User}
    (b : JSNumber) (h : findById users id = some u) :
    balanceOf (updateBalance users id b) id = some b := by
  simp [balanceOf, findById_updateBalance_self b h]

theorem balanceOf_updateBalance_ne (users : List User) {id id2 : ObjectId} (b : JSNumber)
    (hne : id2 ≠ id) : balanceOf (updateBalance users id b) id2 = balanceOf users id2 :=
  findById_updateBalance_ne users b hne

theorem totalBalance_updateBalance {users : List User} {id : ObjectId} {u : User}
    (b : JSNumber) (h : findById users id = some u) :
    totalBalance (updateBalance users id b) =
      totalBalance users - u.balance.value + b.value := by
  induction users with
  | nil => simp [findById] at h
  | cons v vs ih =>
    by_cases hv : v._id = id
    · have hvu : v = u := by simpa [findById, List.find?, hv] using h
      subst hvu
      simp [updateBalance, hv, totalBalance]
      ring
    · have h2 : findById vs id = some u := by simpa [findById, List.find?, hv] using h
      have := ih h2
      simp only [totalBalance] at this
      simp [updateBalance, hv, totalBalance, this]
      ring

theorem findById_of_mem_nodup {users : List User} {u : User}
    (hn : (users.map (fun w => w._id)).Nodup) (h : u ∈ users) :
    findById users u._id = some u := by
  induction users with
  | nil => simp at h
  | cons v vs ih =>
    simp only [List.map_cons, List.nodup_cons, List.mem_map, not_exists, not_and] at hn
    rcases List.mem_cons.1 h with rfl | hm
    · simp [findById, List.find?]
    · have hv : v._id ≠ u._id := fun e => hn.1 u hm e.symm
      simp [findById, List.find?, hv]
      exact ih hn.2 hm

/-! ## The three ledger handlers, case by case -/

theorem sendMoney_cases (db : Db) (userId : ObjectId) (amount : JSNumber) (mobile : String)
    (now : Nat) :
    ((sendMoney db userId amount mobile now).1.isError = true ∧
      (sendMoney db userId amount mobile now).2 = db) ∨
    ∃ sender r, findById db.users userId = some sender ∧
      findByMobile db.users mobile = some r ∧
      sendMoney db userId amount mobile now = sendMoneyCommit db sender r amount
        (if amount.gt (.finite 100) then sender.balance.sub (amount.add (.finite 5))
          else sender.balance.sub amount) now := by
  cases hr : findByMobile db.users mobile with
  | none => left; simp [sendMoney, hr, Response.isError]
  | some r =>
    cases hs : findById db.users userId with
    | none => left; simp [sendMoney, hr, hs, Response.isError]
    | some sender =>
      by_cases h1 : sender.balance.lt amount = true
      · left; simp [sendMoney, hr, hs, h1, Response.isError]
      · by_cases h2 : amount.lt (.finite 50) = true
        · left; simp [sendMoney, hr, hs, h1, h2, Response.isError]
        · by_cases h100 : amount.gt (.finite 100) = true
          · by_cases h3 : sender.balance.lt (amount.add (.finite 5)) = true
            · left; simp [sendMoney, hr, hs, h1, h2, h100, h3, Response.isError]
            · right
              exact ⟨sender, r, rfl, rfl, by simp [sendMoney, hr, hs, h1, h2, h100, h3]⟩
          · right
            exact ⟨sender, r, rfl, rfl, by simp [sendMoney, hr, hs, h1, h2, h100]⟩

theorem sendMoney_ok_eq {db : Db} {userId : ObjectId} {amount : JSNumber} {mobile : String}
    {now : Nat} {sender r : User} (hs : findById db.users userId = some sender)
    (hr : findByMobile db.users mobile = some r)
    (hok : (sendMoney db userId amount mobile now).1 = .status 200 "Transaction successful") :
    sendMoney db userId amount mobile now = sendMoneyCommit db sender r amount
      (if amount.gt (.finite 100) then sender.balance.sub (amount.add (.finite 5))
        else sender.balance.sub amount) now := by
  rcases sendMoney_cases db userId amount mobile now with h | ⟨s2, r2, hs2, hr2, heq⟩
  · rw [hok] at h
    simp [Response.isError] at h
  · rw [hs] at hs2
    rw [hr] at hr2
    cases hs2
    cases hr2
    exact heq

theorem cashOut_cases (db : Db) (userId : ObjectId) (amount : JSNumber) (mobile : String)
    (now : Nat) :
    ((cashOut db userId amount mobile now).1.isError = true ∧
      (cashOut db userId amount mobile now).2 = db) ∨
    ∃ user agent, findById db.users userId = some user ∧
      findByMobile db.users mobile = some agent ∧ agent.role = "agent" ∧
      cashOut db userId amount mobile now =
        (.status 200 "Cash-out successful",
          { users := updateBalance
              (updateBalance db.users user._id
                (user.balance.sub (amount.add (amount.mul (roundDouble 0.015)))))
              agent._id (agent.balance.add amount),
            transactions := db.transactions ++
              [{ senderId := user._id, recipientId := agent._id, amount := amount,
                 fee := amount.mul (roundDouble 0.015), type := "cash-out",
                 date := now }] }) := by
  cases ha : findByMobile db.users mobile with
  | none => left; simp [cashOut, ha, Response.isError]
  | some agent =>
    by_cases hrole : agent.role = "agent"
    · cases hu : findById db.users userId with
      | none => left; simp [cashOut, ha, hu, hrole, Response.isError]
      | some user =>
        by_cases h1 : user.balance.lt amount = true
        · left; simp [cashOut, ha, hu, hrole, h1, Response.isError]
        · by_cases h2 : amount.lt (.finite 50) = true
          · left; simp [cashOut, ha, hu, hrole, h1, h2, Response.isError]
          · by_cases h3 : user.balance.lt (amount.add (amount.mul (roundDouble 0.015))) = true
            · left; simp [cashOut, ha, hu, hrole, h1, h2, h3, Response.isError]
            · right
              exact ⟨user, agent, rfl, rfl, hrole,
                by simp [cashOut, ha, hu, hrole, h1, h2, h3, insertOne]⟩
    · left; simp [cashOut, ha, hrole, Response.isError]

theorem cashIn_commit_eq {db : Db} {userId : ObjectId} (amount : JSNumber) {mobile : String}
    (now : Nat) {user agent : User} (hu : findById db.users userId = some user)
    (ha : findByMobile db.users mobile = some agent) (hrole : agent.role = "agent") :
    cashIn db userId amount mobile now =
      (.status 200 "Cash-in successful",
        { users := updateBalance
            (updateBalance db.users agent._id (agent.balance.sub amount))
            user._id (user.balance.add amount),
          transactions := db.transactions ++
            [{ senderId := agent._id, recipientId := user._id, amount := amount,
               fee := .finite 0, type := "cash-in", date := now }] }) := by
  simp [cashIn, hu, ha, hrole, insertOne]

theorem cashIn_cases (db : Db) (userId : ObjectId) (amount : JSNumber) (mobile : String)
    (now : Nat) :
    ((cashIn db userId amount mobile now).1.isError = true ∧
      (cashIn db userId amount mobile now).2 = db) ∨
    ∃ user agent, findById db.users userId = some user ∧
      findByMobile db.users mobile = some agent ∧ agent.role = "agent" := by
  cases ha : findByMobile db.users mobile with
  | none => left; simp [cashIn, ha, Response.isError]
  | some agent =>
    by_cases hrole : agent.role = "agent"
    · cases hu : findById db.users userId with
      | none => left; simp [cashIn, ha, hu, hrole, Response.isError]
      | some user => right; exact ⟨user, agent, rfl, rfl, hrole⟩
    · left; simp [cashIn, ha, hrole, Response.isError]

/-! ## Rounding in the handlers -/

/-- Rounding decides the fee check of send: with balance `132.99999999999994` and
amount `127.99999999999996` the double sum `amount + 5` is the balance itself, and
the send goes through although the exact sum is above the balance. -/
theorem sendMoney_fee_check_rounds :
    (sendMoney
      ⟨[customer 1 "011" (2339760743907327 / 2 ^ 44), customer 2 "022" 0], []⟩ 1
      (.finite (9007199254740989 / 2 ^ 46)) "022" 7).1 =
        .status 200 "Transaction successful" ∧
    (2339760743907327 / 2 ^ 44 : ℚ) < 9007199254740989 / 2 ^ 46 + 5 := by
  have e0 : (JSNumber.finite (9007199254740989 / 2 ^ 46)).add (.finite 5) =
      .finite (2339760743907327 / 2 ^ 44) := by
    show roundDouble (9007199254740989 / 2 ^ 46 + 5) = _
    have he : quantumExp (9007199254740989 / 2 ^ 46 + 5) = -45 := by
      apply quantumExp_eq (by norm_num) <;> norm_num [abs_of_pos]
    have hm : roundHalfEven ((9007199254740989 / 2 ^ 46 + 5 : ℚ) / 2 ^ (-45 : ℤ)) =
        4679521487814654 := by
      apply roundHalfEven_tie_even <;> norm_num
    rw [roundDouble_eq he hm (by norm_num [abs_of_pos])]
    congr 1
    norm_num
  have c1 : (JSNumber.finite (2339760743907327 / 2 ^ 44)).lt
      (.finite (9007199254740989 / 2 ^ 46)) = false := by norm_num [JSNumber.lt]
  have c2 : (JSNumber.finite (9007199254740989 / 2 ^ 46)).lt (.finite 50) = false := by
    norm_num [JSNumber.lt]
  have c3 : (JSNumber.finite (9007199254740989 / 2 ^ 46)).gt (.finite 100) = true := by
    norm_num [JSNumber.gt, JSNumber.lt]
  have c4 : (JSNumber.finite (2339760743907327 / 2 ^ 44)).lt
      (.finite (2339760743907327 / 2 ^ 44)) = false := by simp [JSNumber.lt]
  refine ⟨?_, by norm_num⟩
  simp [sendMoney, sendMoneyCommit, findById, findByMobile, customer, c1, c2, c3, c4, e0]

/-- Rounding decides the fee check of cash-out: with balance `50.7703` and amount
`50.02` the double fee is `0.7503` and the double sum `amount + fee` is
`50.770300000000006`, above the balance, so the request is refused. -/
theorem cashOut_fee_check_rounds :
    (cashOut
      ⟨[customer 1 "011" (7145284505046509 / 2 ^ 47), agentUser 3 "033" 10000], []⟩ 1
      (.finite (7039689167533507 / 2 ^ 47)) "033" 7).1 =
        .status 400 "Insufficient balance for transaction fee" := by
  have e0 : (JSNumber.finite (7039689167533507 / 2 ^ 47)).mul (roundDouble 0.015) =
      .finite (3379050800416083 / 2 ^ 52) := by
    rw [roundDouble_fee_rate]
    show roundDouble (7039689167533507 / 2 ^ 47 * (1080863910568919 / 2 ^ 56)) = _
    have he : quantumExp (7039689167533507 / 2 ^ 47 * (1080863910568919 / 2 ^ 56)) = -53 := by
      apply quantumExp_eq (by norm_num) <;> norm_num [abs_of_pos]
    have hm : roundHalfEven
        ((7039689167533507 / 2 ^ 47 * (1080863910568919 / 2 ^ 56) : ℚ) / 2 ^ (-53 : ℤ)) =
        6758101600832166 := by
      apply roundHalfEven_eq_of_near <;> norm_num
    rw [roundDouble_eq he hm (by norm_num [abs_of_pos])]
    congr 1
    norm_num
  have e1 : (JSNumber.finite (7039689167533507 / 2 ^ 47)).add
      (.finite (3379050800416083 / 2 ^ 52)) = .finite (3572642252523255 / 2 ^ 46) := by
    show roundDouble (7039689167533507 / 2 ^ 47 + 3379050800416083 / 2 ^ 52) = _
    have he : quantumExp (7039689167533507 / 2 ^ 47 + 3379050800416083 / 2 ^ 52) = -47 := by
      apply quantumExp_eq (by norm_num) <;> norm_num [abs_of_pos]
    have hm : roundHalfEven
        ((7039689167533507 / 2 ^ 47 + 3379050800416083 / 2 ^ 52 : ℚ) / 2 ^ (-47 : ℤ)) =
        7145284505046510 := by
      apply roundHalfEven_eq_of_near <;> norm_num
    rw [roundDouble_eq he hm (by norm_num [abs_of_pos])]
    congr 1
    norm_num
  have c1 : (JSNumber.finite (7145284505046509 / 2 ^ 47)).lt
      (.finite (7039689167533507 / 2 ^ 47)) = false := by norm_num [JSNumber.lt]
  have c2 : (JSNumber.finite (7039689167533507 / 2 ^ 47)).lt (.finite 50) = false := by
    norm_num [JSNumber.lt]
  have c3 : (JSNumber.finite (7145284505046509 / 2 ^ 47)).lt
      (.finite (3572642252523255 / 2 ^ 46)) = true := by norm_num [JSNumber.lt]
  simp [cashOut, findById, findByMobile, customer, agentUser, c1, c2, c3, e0, e1]

/-- Rounding loses a credit: a caller holding `2 ^ 53` asks for a cash-in of 1 and is
stored with `2 ^ 53` again. -/
theorem cashIn_credit_lost_at_two_pow_53 :
    balanceOf (cashIn ⟨[customer 1 "011" (2 ^ 53), agentUser 3 "033" 10000], []⟩ 1
      (.finite 1) "033" 7).2.users 1 = some (.finite (2 ^ 53)) := by
  have e1 : (JSNumber.finite (2 ^ 53)).add (.finite 1) = .finite (2 ^ 53) := by
    show roundDouble (2 ^ 53 + 1) = _
    have he : quantumExp (2 ^ 53 + 1) = 1 := by
      apply quantumExp_eq (by norm_num) <;> norm_num [abs_of_pos]
    have hm : roundHalfEven ((2 ^ 53 + 1 : ℚ) / 2 ^ (1 : ℤ)) = 4503599627370496 := by
      apply roundHalfEven_tie_even <;> norm_num
    rw [roundDouble_eq he hm (by norm_num [abs_of_pos])]
    congr 1
    norm_num
  simp [cashIn, findById, findByMobile, customer, agentUser, balanceOf, updateBalance, e1]

/-! ## The store's sort keeps equal dates in insertion order -/

theorem filter_date_orderedInsert (d : Nat) (a : Transaction) (s : List Transaction) :
    (s.orderedInsert newerOrEq a).filter (fun t => decide (t.date = d)) =
      if a.date = d then a :: s.filter (fun t => decide (t.date = d))
      else s.filter (fun t => decide (t.date = d)) := by
  induction s with
  | nil => by_cases h : a.date = d <;> simp [h]
  | cons b s ih =>
    by_cases hab : newerOrEq a b
    · rw [List.orderedInsert, if_pos hab]
      by_cases h : a.date = d <;> simp [List.filter_cons, h]
    · rw [List.orderedInsert, if_neg hab, List.filter_cons, ih]
      have hlt : a.date < b.date := Nat.lt_of_not_le hab
      by_cases h : a.date = d
      · have hb : ¬ b.date = d := by omega
        simp [h, hb, List.filter_cons]
      · by_cases hb : b.date = d <;> simp [h, hb, List.filter_cons]

theorem filter_date_insertionSort (d : Nat) (l : List Transaction) :
    (l.insertionSort newerOrEq).filter (fun t => decide (t.date = d)) =
      l.filter (fun t => decide (t.date = d)) := by
  induction l with
  | nil => rfl
  | cons a l ih =>
    rw [List.insertionSort, filter_date_orderedInsert, ih]
    by_cases h : a.date = d <;> simp [List.filter_cons, h]

/-! ## Login and registration -/

/-- The user login issues a token only to an account of status `approved`. -/
theorem login_token_only_approved (compare : String → String → Bool) (db : Db)
    (mobileNumber email : Option String) (pin : String) (t : Token)
    (h : login compare db mobileNumber email pin = .token t) :
    ∃ u, findByMobileOrEmail db.users mobileNumber email = some u ∧
      u.status = "approved" ∧ compare pin u.pin = true ∧ t = { id := u._id, role := u.role } := by
  unfold login at h
  cases hf : findByMobileOrEmail db.users mobileNumber email with
  | none => rw [hf] at h; simp at h
  | some u =>
    rw [hf] at h
    by_cases hc : compare pin u.pin = true
    · by_cases hst : u.status = "approved"
      · simp [hc, hst] at h
        exact ⟨u, rfl, hst, hc, h.symm⟩
      · simp [hc, hst] at h
    · simp [hc] at h

/-- Every account that registration stores has status `pending`, whatever its role. -/
theorem register_stores_pending (hash : String → String) (db : Db) (body : RegisterBody)
    (newId : ObjectId) :
    (register hash db body newId).2 = db ∨
    ∃ u, (register hash db body newId).2.users = db.users ++ [u] ∧ u.status = "pending" ∧
      u.role = body.role := by
  by_cases h : body.name = "" ∨ body.pin = "" ∨ body.mobileNumber = "" ∨ body.email = "" ∨
      body.role = ""
  · left
    simp only [register, if_pos h]
  · cases hf : findByMobileOrEmail db.users (some body.mobileNumber) (some body.email) with
    | some v =>
      left
      simp only [register, if_neg h, hf]
    | none =>
      right
      simp only [register, if_neg h, hf]
      exact ⟨_, rfl, rfl, rfl⟩

/-! ## Claims -/

/-- C1 fails on cash-in: every balance of the sample database is non-negative,
customer 1 asks for a cash-in of 20000 naming agent 3 (balance 10000), the request
succeeds and the agent's stored balance is -10000. -/
theorem cashIn_overdraws_agent :
    (∀ u ∈ db0.users, (JSNumber.finite 0).le u.balance = true) ∧
    (cashIn db0 1 (.finite 20000) "033" 7).1 = .status 200 "Cash-in successful" ∧
    balanceOf (cashIn db0 1 (.finite 20000) "033" 7).2.users 3 = some (.finite (-10000)) := by
  have e1 : (JSNumber.finite 10000).sub (.finite 20000) = .finite (-10000) := by
    simpa using sub_intCast 10000 20000 (by norm_num)
  refine ⟨?_, ?_, ?_⟩
  · simp [db0, customer, agentUser, JSNumber.le]
  · simp [cashIn, findById, findByMobile, db0, customer, agentUser]
  · simp [cashIn, findById, findByMobile, db0, customer, agentUser, balanceOf, updateBalance,
      e1]

/-- C2 fails on a self-send: customer 1 (balance 200) sends 80 to their own number.
The request succeeds, the record has amount 80 and fee 0 with sender and recipient
both account 1, and the stored balance afterwards is 280, so
`after + amount + fee = before` does not hold for the debited account. -/
theorem sendMoney_self_breaks_conservation :
    (sendMoney db0 1 (.finite 80) "011" 7).1 = .status 200 "Transaction successful" ∧
    (sendMoney db0 1 (.finite 80) "011" 7).2.transactions =
      [{ senderId := 1, recipientId := 1, amount := .finite 80, fee := .finite 0,
         type := "send", date := 7 }] ∧
    balanceOf db0.users 1 = some (.finite 200) ∧
    balanceOf (sendMoney db0 1 (.finite 80) "011" 7).2.users 1 = some (.finite 280) ∧
    (280 : ℚ) + 80 + 0 ≠ 200 := by
  have e1 : (JSNumber.finite 200).add (.finite 80) = .finite 280 := by
    simpa using add_intCast 200 80 (by norm_num)
  have e2 : (JSNumber.finite 200).sub (.finite 80) = .finite 120 := by
    simpa using sub_intCast 200 80 (by norm_num)
  have c1 : (JSNumber.finite 200).lt (.finite 80) = false := by norm_num [JSNumber.lt]
  have c2 : (JSNumber.finite 80).lt (.finite 50) = false := by norm_num [JSNumber.lt]
  have c3 : (JSNumber.finite 80).gt (.finite 100) = false := by
    norm_num [JSNumber.gt, JSNumber.lt]
  refine ⟨?_, ?_, ?_, ?_, by norm_num⟩
  · simp [sendMoney, sendMoneyCommit, findById, findByMobile, db0, customer, c1, c2, c3]
  · simp [sendMoney, sendMoneyCommit, findById, findByMobile, db0, customer, insertOne,
      c1, c2, c3]
  · simp [balanceOf, findById, db0, customer]
  · simp [sendMoney, sendMoneyCommit, findById, findByMobile, db0, customer, agentUser,
      balanceOf, updateBalance, c1, c2, c3, e1, e2]

/-- C3 fails on a self-send: customer 1 (balance 200) sends 150 to their own number.
The request succeeds and the record has amount 150 and fee 5, so the claim has the
sender end at `200 - (150 + 5) = 45`; the stored balance afterwards is 350. -/
theorem sendMoney_self_is_not_debited :
    (sendMoney db0 1 (.finite 150) "011" 7).1 = .status 200 "Transaction successful" ∧
    (sendMoney db0 1 (.finite 150) "011" 7).2.transactions =
      [{ senderId := 1, recipientId := 1, amount := .finite 150, fee := .finite 5,
         type := "send", date := 7 }] ∧
    balanceOf db0.users 1 = some (.finite 200) ∧
    balanceOf (sendMoney db0 1 (.finite 150) "011" 7).2.users 1 = some (.finite 350) ∧
    (200 : ℚ) - (150 + 5) = 45 := by
  have e0 : (JSNumber.finite 150).add (.finite 5) = .finite 155 := by
    simpa using add_intCast 150 5 (by norm_num)
  have e1 : (JSNumber.finite 200).add (.finite 150) = .finite 350 := by
    simpa using add_intCast 200 150 (by norm_num)
  have e2 : (JSNumber.finite 200).sub (.finite 155) = .finite 45 := by
    simpa using sub_intCast 200 155 (by norm_num)
  have c1 : (JSNumber.finite 200).lt (.finite 150) = false := by norm_num [JSNumber.lt]
  have c2 : (JSNumber.finite 150).lt (.finite 50) = false := by norm_num [JSNumber.lt]
  have c3 : (JSNumber.finite 150).gt (.finite 100) = true := by
    norm_num [JSNumber.gt, JSNumber.lt]
  have c4 : (JSNumber.finite 200).lt (.finite 155) = false := by norm_num [JSNumber.lt]
  refine ⟨?_, ?_, ?_, ?_, by norm_num⟩
  · simp [sendMoney, sendMoneyCommit, findById, findByMobile, db0, customer, c1, c2, c3,
      c4, e0]
  · simp [sendMoney, sendMoneyCommit, findById, findByMobile, db0, customer, insertOne,
      c1, c2, c3, c4, e0]
  · simp [balanceOf, findById, db0, customer]
  · simp [sendMoney, sendMoneyCommit, findById, findByMobile, db0, customer, agentUser,
      balanceOf, updateBalance, c1, c2, c3, c4, e0, e1, e2]

/-- C4 fails when the caller names itself: agent 3 (balance 10000) cashes out 100 at
its own number.  The request succeeds and the record has amount 100 and fee 1.5,
which is `100 * 0.015` exactly, so the claim has the user end at
`10000 - (100 + 1.5) = 9898.5`; the stored balance afterwards is 10100. -/
theorem cashOut_self_is_not_debited :
    (cashOut db0 3 (.finite 100) "033" 7).1 = .status 200 "Cash-out successful" ∧
    (cashOut db0 3 (.finite 100) "033" 7).2.transactions =
      [{ senderId := 3, recipientId := 3, amount := .finite 100, fee := .finite (3 / 2),
         type := "cash-out", date := 7 }] ∧
    balanceOf db0.users 3 = some (.finite 10000) ∧
    balanceOf (cashOut db0 3 (.finite 100) "033" 7).2.users 3 = some (.finite 10100) ∧
    (100 : ℚ) * 0.015 = 3 / 2 ∧ (10000 : ℚ) - (100 + 100 * 0.015) = 9898.5 := by
  have e0 : (JSNumber.finite 100).add (.finite (3 / 2)) = .finite (203 / 2) := by
    show roundDouble (100 + 3 / 2) = _
    rw [roundDouble_of_representable 203 (-1) (by norm_num) (by norm_num) (by norm_num)
      (by norm_num [abs_of_pos])]
    norm_num
  have e1 : (JSNumber.finite 10000).add (.finite 100) = .finite 10100 := by
    simpa using add_intCast 10000 100 (by norm_num)
  have e2 : (JSNumber.finite 10000).sub (.finite (203 / 2)) = .finite (19797 / 2) := by
    show roundDouble (10000 + -(203 / 2)) = _
    rw [roundDouble_of_representable 19797 (-1) (by norm_num) (by norm_num) (by norm_num)
      (by norm_num [abs_of_pos])]
    norm_num
  have c1 : (JSNumber.finite 10000).lt (.finite 100) = false := by norm_num [JSNumber.lt]
  have c2 : (JSNumber.finite 100).lt (.finite 50) = false := by norm_num [JSNumber.lt]
  have c4 : (JSNumber.finite 10000).lt (.finite (203 / 2)) = false := by
    norm_num [JSNumber.lt]
  refine ⟨?_, ?_, ?_, ?_, by norm_num, by norm_num⟩
  · simp [cashOut, findById, findByMobile, db0, customer, agentUser, c1, c2, c4, e0,
      mul_hundred_fee_rate]
  · simp [cashOut, findById, findByMobile, db0, customer, agentUser, insertOne, c1, c2, c4,
      e0, mul_hundred_fee_rate]
  · simp [balanceOf, findById, db0, customer, agentUser]
  · simp [cashOut, findById, findByMobile, db0, customer, agentUser, balanceOf,
      updateBalance, c1, c2, c4, e0, e1, e2, mul_hundred_fee_rate]

/-- C5: in the sequential model, every send, cash-out and cash-in request is either
rejected with an error and leaves the whole database (every balance and the
transaction log) exactly as it was, or answers success and appends exactly one
record to the log, the earlier records staying as they were. -/
theorem ledger_all_or_nothing (db : Db) (userId : ObjectId) (amount : JSNumber)
    (mobile : String) (now : Nat) :
    (((sendMoney db userId amount mobile now).1.isError = true ∧
        (sendMoney db userId amount mobile now).2 = db) ∨
      ((sendMoney db userId amount mobile now).1.isError = false ∧
        ∃ record, (sendMoney db userId amount mobile now).2.transactions =
          db.transactions ++ [record])) ∧
    (((cashOut db userId amount mobile now).1.isError = true ∧
        (cashOut db userId amount mobile now).2 = db) ∨
      ((cashOut db userId amount mobile now).1.isError = false ∧
        ∃ record, (cashOut db userId amount mobile now).2.transactions =
          db.transactions ++ [record])) ∧
    (((cashIn db userId amount mobile now).1.isError = true ∧
        (cashIn db userId amount mobile now).2 = db) ∨
      ((cashIn db userId amount mobile now).1.isError = false ∧
        ∃ record, (cashIn db userId amount mobile now).2.transactions =
          db.transactions ++ [record])) := by
  refine ⟨?_, ?_, ?_⟩
  · rcases sendMoney_cases db userId amount mobile now with h | ⟨sender, r, _, _, heq⟩
    · exact Or.inl h
    · right
      rw [heq]
      exact ⟨rfl, _, rfl⟩
  · rcases cashOut_cases db userId amount mobile now with h | ⟨user, agent, _, _, _, heq⟩
    · exact Or.inl h
    · right
      rw [heq]
      exact ⟨rfl, _, rfl⟩
  · rcases cashIn_cases db userId amount mobile now with h | ⟨user, agent, hu, ha, hrole⟩
    · exact Or.inl h
    · right
      rw [cashIn_commit_eq amount now hu ha hrole]
      exact ⟨rfl, _, rfl⟩

/-- C6 fails on cash-in: customer 1 asks for a cash-in of -100 naming agent 3; the
request succeeds and the record written has amount -100.  A cash-in of 0 is logged
the same way. -/
theorem cashIn_logs_nonpositive_amount :
    (cashIn db0 1 (.finite (-100)) "033" 7).1 = .status 200 "Cash-in successful" ∧
    (cashIn db0 1 (.finite (-100)) "033" 7).2.transactions =
      [{ senderId := 3, recipientId := 1, amount := .finite (-100), fee := .finite 0,
         type := "cash-in", date := 7 }] ∧
    (cashIn db0 1 (.finite 0) "033" 8).2.transactions =
      [{ senderId := 3, recipientId := 1, amount := .finite 0, fee := .finite 0,
         type := "cash-in", date := 8 }] := by
  simp [cashIn, findById, findByMobile, db0, customer, agentUser, insertOne]

/-- C7 fails: customer 1, the authenticated caller, asks for a cash-in of 100 naming
agent 3.  The request succeeds, the debited account recorded as `senderId` is agent 3
and not the caller, and the caller is the one credited. -/
theorem cashIn_caller_is_credited_not_debited :
    (cashIn db0 1 (.finite 100) "033" 7).1 = .status 200 "Cash-in successful" ∧
    (cashIn db0 1 (.finite 100) "033" 7).2.transactions =
      [{ senderId := 3, recipientId := 1, amount := .finite 100, fee := .finite 0,
         type := "cash-in", date := 7 }] ∧
    balanceOf db0.users 3 = some (.finite 10000) ∧
    balanceOf (cashIn db0 1 (.finite 100) "033" 7).2.users 3 = some (.finite 9900) ∧
    balanceOf db0.users 1 = some (.finite 200) ∧
    balanceOf (cashIn db0 1 (.finite 100) "033" 7).2.users 1 = some (.finite 300) := by
  have e1 : (JSNumber.finite 10000).sub (.finite 100) = .finite 9900 := by
    simpa using sub_intCast 10000 100 (by norm_num)
  have e2 : (JSNumber.finite 200).add (.finite 100) = .finite 300 := by
    simpa using add_intCast 200 100 (by norm_num)
  refine ⟨?_, ?_, ?_, ?_, ?_, ?_⟩
  · simp [cashIn, findById, findByMobile, db0, customer, agentUser]
  · simp [cashIn, findById, findByMobile, db0, customer, agentUser, insertOne]
  · simp [balanceOf, findById, db0, customer, agentUser]
  · simp [cashIn, findById, findByMobile, db0, customer, agentUser, balanceOf,
      updateBalance, e1, e2]
  · simp [balanceOf, findById, db0, customer, agentUser]
  · simp [cashIn, findById, findByMobile, db0, customer, agentUser, balanceOf,
      updateBalance, e1, e2]

/-- C8: for every transaction log and account id, the history holds only logged
records whose `senderId` or `recipientId` is that account, is sorted by date
descending, lists the records of any one date in their insertion order, has
length `min 10 n` for `n` matching records, and the matching records left out,
together with the returned ones, are exactly the matching records, none of those
left out newer than a returned one. -/
theorem getTransactions_newest_ten (db : Db) (userId : ObjectId) :
    (∀ t ∈ getTransactions db userId,
      t ∈ db.transactions ∧ (t.senderId = userId ∨ t.recipientId = userId)) ∧
    (getTransactions db userId).Pairwise (fun a b => b.date ≤ a.date) ∧
    (∀ d, ((getTransactions db userId).filter (fun t => decide (t.date = d))) <+:
      ((db.transactions.filter
        (fun t => decide (t.senderId = userId ∨ t.recipientId = userId))).filter
        (fun t => decide (t.date = d)))) ∧
    (getTransactions db userId).length =
      min 10 (db.transactions.filter
        (fun t => decide (t.senderId = userId ∨ t.recipientId = userId))).length ∧
    ∃ omitted, (getTransactions db userId ++ omitted).Perm
        (db.transactions.filter
          (fun t => decide (t.senderId = userId ∨ t.recipientId = userId))) ∧
      ∀ t ∈ omitted, ∀ r ∈ getTransactions db userId, t.date ≤ r.date := by
  have hfilter : db.transactions.filter
      (fun t => decide (t.senderId = userId ∨ t.recipientId = userId)) =
      db.transactions.filter (involves userId) := by
    congr 1
    funext t
    simp [involves]
  rw [hfilter]
  have hperm := List.perm_insertionSort newerOrEq (db.transactions.filter (involves userId))
  have hsorted : ((db.transactions.filter (involves userId)).insertionSort
      newerOrEq).Pairwise newerOrEq :=
    List.sorted_insertionSort newerOrEq (db.transactions.filter (involves userId))
  refine ⟨?_, ?_, ?_, ?_, ?_⟩
  · intro t ht
    have h1 : t ∈ (db.transactions.filter (involves userId)).insertionSort newerOrEq :=
      List.mem_of_mem_take ht
    have h2 := hperm.mem_iff.1 h1
    rw [List.mem_filter] at h2
    refine ⟨h2.1, ?_⟩
    simpa [involves] using h2.2
  · exact List.Pairwise.sublist (List.take_sublist _ _) hsorted
  · intro d
    rw [← filter_date_insertionSort d (db.transactions.filter (involves userId))]
    exact List.IsPrefix.filter _ (List.take_prefix _ _)
  · simp only [getTransactions, List.length_take, hperm.length_eq]
  · refine ⟨((db.transactions.filter (involves userId)).insertionSort newerOrEq).drop 10,
      ?_, ?_⟩
    · simp only [getTransactions, List.take_append_drop]
      exact hperm
    · intro t ht r hr
      have hp : (((db.transactions.filter (involves userId)).insertionSort newerOrEq).take 10
          ++ ((db.transactions.filter (involves userId)).insertionSort newerOrEq).drop
            10).Pairwise newerOrEq := by
        rw [List.take_append_drop]; exact hsorted
      exact (List.pairwise_append.1 hp).2.2 r hr t ht

/-- After fifteen transactions of account 1 the history is the ten latest, newest
first, the two pairs of equal date in insertion order. -/
theorem getTransactions_fifteen :
    (fifteenLog.filter (fun t => decide (t.senderId = 1 ∨ t.recipientId = 1))).length = 15 ∧
    getTransactions ⟨[], fifteenLog⟩ 1 =
      [sendRecord 65 15, sendRecord 64 14, sendRecord 62 12, sendRecord 63 12,
       sendRecord 61 11, sendRecord 60 10, sendRecord 59 9, sendRecord 58 8,
       sendRecord 56 6, sendRecord 57 6] := by
  constructor
  · simp [fifteenLog, sendRecord]
  · simp [getTransactions, fifteenLog, sendRecord, involves, List.insertionSort,
      List.orderedInsert, newerOrEq]

/-- C9 fails on the admin login: a registration with role `admin` is stored with
status `pending`, the user login refuses that account, and the admin login issues
it a token all the same. -/
theorem adminLogin_issues_token_to_pending_account :
    (register sampleHash db0 adminBody 9).1 = .status 201 "User registered successfully" ∧
    (findByMobileOrEmail (register sampleHash db0 adminBody 9).2.users (some "099") none).map
      (fun u => u.status) = some "pending" ∧
    login sampleCompare (register sampleHash db0 adminBody 9).2 (some "099") none "1234" =
      .status 400 "Account not approved" ∧
    adminLogin sampleCompare (register sampleHash db0 adminBody 9).2 (some "099") none "1234" =
      .token { id := 9, role := "admin" } := by
  simp [register, login, adminLogin, findByMobileOrEmail, findAdminByMobileOrEmail, db0,
    adminBody, customer, agentUser, sampleHash, sampleCompare]

/-- C10 as stated fails in double arithmetic: customer 1 holding `139.1` sends
`60.3` to customer 2 holding `0.7`.  The send succeeds with fee 0, the debit
`139.1 - 60.3` is exact and the credit `0.7 + 60.3` is stored as 61, so the sum of
all balances rises by `13 / 2 ^ 52` where the claim has it fall by exactly the fee. -/
theorem sendMoney_total_shifts_by_rounding :
    (sendMoney dbDecimal 1 (.finite d60_3) "022" 7).1 =
      .status 200 "Transaction successful" ∧
    (sendMoney dbDecimal 1 (.finite d60_3) "022" 7).2.transactions =
      [{ senderId := 1, recipientId := 2, amount := .finite d60_3, fee := .finite 0,
         type := "send", date := 7 }] ∧
    balanceOf (sendMoney dbDecimal 1 (.finite d60_3) "022" 7).2.users 1 =
      some (.finite d78_8) ∧
    balanceOf (sendMoney dbDecimal 1 (.finite d60_3) "022" 7).2.users 2 =
      some (.finite 61) ∧
    d139_1 - d60_3 = d78_8 ∧ d0_7 + d60_3 = 61 - 13 / 2 ^ 52 ∧
    totalBalance (sendMoney dbDecimal 1 (.finite d60_3) "022" 7).2.users =
      totalBalance dbDecimal.users - 0 + 13 / 2 ^ 52 := by
  have e1 : (JSNumber.finite d139_1).sub (.finite d60_3) = .finite d78_8 := by
    show roundDouble (d139_1 + -d60_3) = _
    rw [roundDouble_of_representable 5545057041199923 (-46)
      (by norm_num [d139_1, d60_3]) (by norm_num) (by norm_num)
      (by norm_num [d139_1, d60_3, abs_of_pos])]
    congr 1
    norm_num [d139_1, d60_3, d78_8]
  have e2 : (JSNumber.finite d0_7).add (.finite d60_3) = .finite 61 := by
    show roundDouble (d0_7 + d60_3) = _
    have he : quantumExp (d0_7 + d60_3) = -47 := by
      apply quantumExp_eq (by norm_num) <;> norm_num [d0_7, d60_3, abs_of_pos]
    have hm : roundHalfEven ((d0_7 + d60_3 : ℚ) / 2 ^ (-47 : ℤ)) = 8584986789675008 := by
      apply roundHalfEven_eq_of_near <;> norm_num [d0_7, d60_3]
    rw [roundDouble_eq he hm (by norm_num [abs_of_pos])]
    congr 1
    norm_num
  have c1 : (JSNumber.finite d139_1).lt (.finite d60_3) = false := by
    norm_num [JSNumber.lt, d139_1, d60_3]
  have c2 : (JSNumber.finite d60_3).lt (.finite 50) = false := by
    norm_num [JSNumber.lt, d60_3]
  have c3 : (JSNumber.finite d60_3).gt (.finite 100) = false := by
    norm_num [JSNumber.gt, JSNumber.lt, d60_3]
  refine ⟨?_, ?_, ?_, ?_, by norm_num [d139_1, d60_3, d78_8], by norm_num [d0_7, d60_3], ?_⟩
  · simp [sendMoney, sendMoneyCommit, findById, findByMobile, dbDecimal, customer, c1, c2, c3]
  · simp [sendMoney, sendMoneyCommit, findById, findByMobile, dbDecimal, customer, insertOne,
      c1, c2, c3]
  · simp [sendMoney, sendMoneyCommit, findById, findByMobile, dbDecimal, customer,
      balanceOf, updateBalance, c1, c2, c3, e1, e2]
  · simp [sendMoney, sendMoneyCommit, findById, findByMobile, dbDecimal, customer,
      balanceOf, updateBalance, c1, c2, c3, e1, e2]
  · simp [sendMoney, sendMoneyCommit, findById, findByMobile, dbDecimal, customer,
      totalBalance, updateBalance, c1, c2, c3, e1, e2, JSNumber.value]
    norm_num [d139_1, d0_7, d78_8]

/-- C10, in the handler's double arithmetic: with unique `_id`s, a send that answers
success and whose recipient number resolves to the sender's own account issues
both balance writes to that one account, the credit last, so its stored balance
ends at the double sum of the balance before and `amount`, which is the balance
before plus `amount` whenever that sum is a double, and the sum of all balances
then grows by `amount`.  A send that answers success between two distinct accounts
stores the double difference for the sender and the double sum for the recipient,
and whenever both are exact the sum of all balances falls by exactly the fee. -/
theorem sendMoney_self_overwrites_debit (db : Db) (userId : ObjectId) (amount : JSNumber)
    (mobile : String) (now : Nat) (sender r : User)
    (hn : (db.users.map (fun u => u._id)).Nodup)
    (hs : findById db.users userId = some sender)
    (hr : findByMobile db.users mobile = some r)
    (hok : (sendMoney db userId amount mobile now).1 = .status 200 "Transaction successful") :
    (r._id = sender._id →
      (sendMoney db userId amount mobile now).2.users =
        updateBalance (updateBalance db.users sender._id
          (if amount.gt (.finite 100) then sender.balance.sub (amount.add (.finite 5))
            else sender.balance.sub amount))
          sender._id (sender.balance.add amount) ∧
      balanceOf (sendMoney db userId amount mobile now).2.users sender._id =
        some (sender.balance.add amount) ∧
      totalBalance (sendMoney db userId amount mobile now).2.users =
        totalBalance db.users - sender.balance.value + (sender.balance.add amount).value ∧
      ∀ x a : ℚ, sender.balance = .finite x → amount = .finite a →
        roundDouble (x + a) = .finite (x + a) →
        balanceOf (sendMoney db userId amount mobile now).2.users sender._id =
          some (.finite (x + a)) ∧
        totalBalance (sendMoney db userId amount mobile now).2.users =
          totalBalance db.users + a) ∧
    (r._id ≠ sender._id →
      balanceOf (sendMoney db userId amount mobile now).2.users sender._id =
        some (if amount.gt (.finite 100) then sender.balance.sub (amount.add (.finite 5))
          else sender.balance.sub amount) ∧
      balanceOf (sendMoney db userId amount mobile now).2.users r._id =
        some (r.balance.add amount) ∧
      totalBalance (sendMoney db userId amount mobile now).2.users =
        totalBalance db.users - sender.balance.value +
          (if amount.gt (.finite 100) then sender.balance.sub (amount.add (.finite 5))
            else sender.balance.sub amount).value -
          r.balance.value + (r.balance.add amount).value ∧
      ∀ x y a : ℚ, sender.balance = .finite x → r.balance = .finite y →
        amount = .finite a →
        (if amount.gt (.finite 100) then sender.balance.sub (amount.add (.finite 5))
          else sender.balance.sub amount) =
          .finite (x - (a + if amount.gt (.finite 100) then 5 else 0)) →
        roundDouble (y + a) = .finite (y + a) →
        totalBalance (sendMoney db userId amount mobile now).2.users =
          totalBalance db.users - (if amount.gt (.finite 100) then 5 else 0)) := by
  have hsid : findById db.users sender._id = some sender := by
    rw [(findById_some hs).1]; exact hs
  have hrid : findById db.users r._id = some r :=
    findById_of_mem_nodup hn (findByMobile_mem hr)
  rw [sendMoney_ok_eq hs hr hok]
  generalize (if amount.gt (.finite 100) then sender.balance.sub (amount.add (.finite 5))
    else sender.balance.sub amount) = debit
  have hmid := findById_updateBalance_self debit hsid
  refine ⟨?_, ?_⟩
  · intro e
    have hrs : r = sender := by
      rw [e, hsid] at hrid
      exact (Option.some.inj hrid).symm
    subst hrs
    have htot : totalBalance (sendMoneyCommit db r r amount debit now).2.users =
        totalBalance db.users - r.balance.value + (r.balance.add amount).value := by
      show totalBalance (updateBalance _ r._id _) = _
      rw [totalBalance_updateBalance _ hmid, totalBalance_updateBalance _ hsid]
      ring
    have hbal : balanceOf (sendMoneyCommit db r r amount debit now).2.users r._id =
        some (r.balance.add amount) := balanceOf_updateBalance_self _ hmid
    refine ⟨rfl, hbal, htot, ?_⟩
    intro x a hx ha hex
    have hadd : r.balance.add amount = .finite (x + a) := by
      rw [hx, ha]; exact hex
    refine ⟨by rw [hbal, hadd], ?_⟩
    rw [htot, hadd, hx]
    simp only [JSNumber.value]
    ring
  · intro hne
    have hmap := findById_updateBalance_ne db.users debit hne
    rw [hrid] at hmap
    cases hw : findById (updateBalance db.users sender._id debit) r._id with
    | none => rw [hw] at hmap; simp at hmap
    | some w =>
      rw [hw] at hmap
      have hwb : w.balance = r.balance := by simpa using hmap
      have htot : totalBalance (sendMoneyCommit db sender r amount debit now).2.users =
          totalBalance db.users - sender.balance.value + debit.value - r.balance.value +
            (r.balance.add amount).value := by
        show totalBalance (updateBalance _ r._id _) = _
        rw [totalBalance_updateBalance _ hw, totalBalance_updateBalance _ hsid, hwb]
      refine ⟨?_, balanceOf_updateBalance_self _ hw, htot, ?_⟩
      · show balanceOf (updateBalance _ r._id _) sender._id = _
        rw [balanceOf_updateBalance_ne _ _ (Ne.symm hne)]
        exact balanceOf_updateBalance_self _ hsid
      · intro x y a hx hy ha hdebit hex
        have hadd : r.balance.add amount = .finite (y + a) := by
          rw [hy, ha]; exact hex
        rw [htot, hadd, hdebit, hx, hy]
        simp only [JSNumber.value]
        ring

/-- Witness for C10 (amended) on the sample database: customer 1 sends 80 to their
own number. -/
theorem sendMoney_self_overwrites_debit_witness :
    balanceOf (sendMoney db0 1 (.finite 80) "011" 7).2.users (customer 1 "011" 200)._id =
      some ((customer 1 "011" 200).balance.add (.finite 80)) :=
  ((sendMoney_self_overwrites_debit db0 1 (.finite 80) "011" 7 (customer 1 "011" 200)
    (customer 1 "011" 200) (by simp [db0, customer, agentUser])
    (by simp [findById, db0, customer]) (by simp [findByMobile, db0, customer])
    (by
      have c1 : (JSNumber.finite 200).lt (.finite 80) = false := by norm_num [JSNumber.lt]
      have c2 : (JSNumber.finite 80).lt (.finite 50) = false := by norm_num [JSNumber.lt]
      have c3 : (JSNumber.finite 80).gt (.finite 100) = false := by
        norm_num [JSNumber.gt, JSNumber.lt]
      simp [sendMoney, sendMoneyCommit, findById, findByMobile, db0, customer, c1, c2,
        c3])).1
    rfl).2.1

end JobTask
